import Mathlib

/-!
Verification of the redux-rs actor-style store engine.

This file gives a shallow embedding of the core store engine of redux-rs:

* `StateWorker`, its three `handle_work` implementations and its `run` loop
  (`src/store/worker/mod.rs`);
* the unit-of-work execution that sends the completion callback after the
  handler returns (`src/store/worker/work.rs`);
* the `Store` facade operations (`src/store/mod.rs`);
* the mailbox `Address::send` path (`src/store/worker/mailbox.rs`);
* the middleware composition mechanism (`src/middleware.rs`).

Modelling conventions: the FIFO mailbox drained by the single worker task is
represented by the list of work items, processed strictly in order (one item
is executed to completion before the next, matching the single-consumer loop
with no suspension point inside a handler).  A reducer is a pure function
`State → Action → State`, a selector a pure function `State → R`.  Subscriber
callbacks are opaque side-effecting closures in Rust; they are modelled by
opaque identifiers (`Nat`), and the observable behaviour of a run is its
ordered event trace: one `notified` event per callback invocation, plus the
completion signal sent over each work item's oneshot callback.  A Rust panic
(`Option::unwrap` on `None`) is modelled by `Option.none` in the result.
-/

set_option maxHeartbeats 1000000

variable {State : Type} {Action : Type} {R : Type}

/-- Events observable while the state worker processes work items.
`notified s st` records one invocation of subscriber `s` with state `st`;
`dispatchDone`, `selected r` and `subscribeDone` record the completion
signal sent over the oneshot callback of the corresponding work item. -/
inductive WorkerEvent (State : Type) (R : Type) where
  | notified (subscriber : Nat) (state : State)
  | dispatchDone
  | selected (result : R)
  | subscribeDone
  deriving DecidableEq

/-- `StateWorker` from `src/store/worker/mod.rs`: the actor that exclusively
owns the current state (held in an `Option` so the reduce step can move it
out), the root reducer, and the registered subscribers in registration
order.  The mailbox field is not part of the record: its queued contents are
the work-item list fed to `StateWorker.run`. -/
structure StateWorker (State Action : Type) where
  root_reducer : State → Action → State
  state : Option State
  subscribers : List Nat

/-- `StateWorker::new`: state starts as `Some(state)`, subscribers empty. -/
def StateWorker.new (root_reducer : State → Action → State) (state : State) :
    StateWorker State Action :=
  { root_reducer := root_reducer, state := some state, subscribers := [] }

/-- The `HandleWork<Dispatch<Action>>` implementation
(`src/store/worker/mod.rs` lines 65-79): take the state out
(`self.state.take().unwrap()` — `none` models the panic when the state is
absent), apply the root reducer, store the new state back, then, unless the
subscriber list is empty, notify every subscriber with the new state in
list order.  The emitted events record the notifications. -/
def StateWorker.handleDispatch (w : StateWorker State Action) (action : Action) :
    Option (StateWorker State Action × List (WorkerEvent State R)) :=
  match w.state with
  | none => none
  | some old_state =>
    let new_state := w.root_reducer old_state action
    let events :=
      if w.subscribers.isEmpty then []
      else w.subscribers.map fun s => WorkerEvent.notified s new_state
    some ({ w with state := some new_state }, events)

/-- The `HandleWork<Select<State, S>>` implementation
(`src/store/worker/mod.rs` lines 92-96): read the current state
(`self.state.as_ref().unwrap()` — `none` models the panic) and apply the
selector to it.  The worker itself is not modified. -/
def StateWorker.handleSelect (w : StateWorker State Action) (selector : State → R) :
    Option R :=
  match w.state with
  | none => none
  | some state => some (selector state)

/-- The `HandleWork<Subscribe<State>>` implementation
(`src/store/worker/mod.rs` lines 107-110): push the subscriber onto the end
of the worker's list. -/
def StateWorker.handleSubscribe (w : StateWorker State Action) (subscriber : Nat) :
    StateWorker State Action :=
  { w with subscribers := w.subscribers ++ [subscriber] }

/-- The three work-item kinds of the worker protocol
(`src/store/worker/dispatch.rs`, `select.rs`, `subscribe.rs`). -/
inductive Work (State Action R : Type) where
  | dispatch (action : Action)
  | select (selector : State → R)
  | subscribe (subscriber : Nat)

/-- `StateWorkerMessage::execute` (`src/store/worker/work.rs` lines 50-53):
run the matching `handle_work`, then send the result over the oneshot
callback.  The completion event is therefore appended after every event the
handler itself produced. -/
def UnitOfWork.execute (w : StateWorker State Action) (work : Work State Action R) :
    Option (StateWorker State Action × List (WorkerEvent State R)) :=
  match work with
  | Work.dispatch action =>
    (w.handleDispatch action).map fun p => (p.1, p.2 ++ [WorkerEvent.dispatchDone])
  | Work.select selector =>
    (w.handleSelect selector).map fun r => (w, [WorkerEvent.selected r])
  | Work.subscribe subscriber =>
    some (w.handleSubscribe subscriber, [WorkerEvent.subscribeDone])

/-- `StateWorker::run` (`src/store/worker/mod.rs` lines 49-53): drain the
FIFO mailbox, executing each received unit of work to completion before the
next.  The accumulated event trace concatenates the per-item traces in
arrival order.  `none` models a panic inside some handler. -/
def StateWorker.run (w : StateWorker State Action) :
    List (Work State Action R) →
      Option (StateWorker State Action × List (WorkerEvent State R))
  | [] => some (w, [])
  | work :: rest =>
    match UnitOfWork.execute w work with
    | none => none
    | some (w', events) =>
      match StateWorker.run w' rest with
      | none => none
      | some (w'', moreEvents) => some (w'', events ++ moreEvents)

/-- Notification events sent to each subscriber in list order for one new
state, as produced by the loop in the dispatch handler. -/
def notifyTrace (subscribers : List Nat) (state : State) : List (WorkerEvent State R) :=
  subscribers.map fun s => WorkerEvent.notified s state

/-- The successive states produced by folding the reducer over an action
sequence: element `k` is the state right after the `k`-th action. -/
def scanStates (red : State → Action → State) (s : State) : List Action → List State
  | [] => []
  | a :: rest => red s a :: scanStates red (red s a) rest

/-- Expected event trace of a dispatch-only run: for each action, the
notifications to all subscribers with the new state, then the completion
signal. -/
def dispatchTrace (red : State → Action → State) (subscribers : List Nat) (s : State) :
    List Action → List (WorkerEvent State R)
  | [] => []
  | a :: rest =>
    notifyTrace subscribers (red s a) ++ [WorkerEvent.dispatchDone]
      ++ dispatchTrace red subscribers (red s a) rest

/-- The states subscriber `x` is notified with, in trace order. -/
def notificationsTo (x : Nat) : List (WorkerEvent State R) → List State
  | [] => []
  | WorkerEvent.notified y s :: rest =>
    if y = x then s :: notificationsTo x rest else notificationsTo x rest
  | WorkerEvent.dispatchDone :: rest => notificationsTo x rest
  | WorkerEvent.selected _ :: rest => notificationsTo x rest
  | WorkerEvent.subscribeDone :: rest => notificationsTo x rest

theorem execute_dispatch (w : StateWorker State Action) (s : State) (a : Action)
    (h : w.state = some s) :
    UnitOfWork.execute (R := R) w (Work.dispatch a) =
      some ({ w with state := some (w.root_reducer s a) },
        notifyTrace w.subscribers (w.root_reducer s a) ++ [WorkerEvent.dispatchDone]) := by
  rcases w with ⟨red, st, subs⟩
  cases h
  cases subs <;> simp [UnitOfWork.execute, StateWorker.handleDispatch, notifyTrace]

theorem run_dispatches (w : StateWorker State Action) (s : State) (as : List Action)
    (h : w.state = some s) :
    StateWorker.run (R := R) w (as.map Work.dispatch) =
      some ({ w with state := some (as.foldl w.root_reducer s) },
        dispatchTrace w.root_reducer w.subscribers s as) := by
  induction as generalizing w s with
  | nil =>
    rcases w with ⟨red, st, subs⟩
    cases h
    simp [StateWorker.run, dispatchTrace]
  | cons a rest ih =>
    have hx := execute_dispatch (R := R) w s a h
    have hrec := ih ({ w with state := some (w.root_reducer s a) }) (w.root_reducer s a) rfl
    simp only [List.map, StateWorker.run, hx, hrec, dispatchTrace, List.foldl]

/-- C1: starting from any worker whose owned state is present, processing a
finite sequence of dispatches (one mailbox item per action, each executed to
completion before the next, as a single awaiting caller produces) leaves the
store's state equal to the left fold of the root reducer over the action
sequence: each action is applied exactly once, in submission order, with no
skips and no duplicates. -/
theorem dispatch_sequence_is_reducer_foldl (w : StateWorker State Action) (s : State)
    (as : List Action) (h : w.state = some s) :
    StateWorker.run (R := R) w (as.map Work.dispatch) =
      some ({ w with state := some (as.foldl w.root_reducer s) },
        dispatchTrace w.root_reducer w.subscribers s as) :=
  run_dispatches w s as h

/-- Witness for C1 at a concrete counter store: dispatching `[1, 2, 3]` with
an adding reducer from initial state `0` ends in state `6 = ((0+1)+2)+3`. -/
theorem dispatch_sequence_is_reducer_foldl_witness :
    ((StateWorker.new (fun s a => s + a) 0 : StateWorker Nat Nat)).state = some 0 ∧
      StateWorker.run (R := Nat) (StateWorker.new (fun s a => s + a) 0)
          ([1, 2, 3].map Work.dispatch) =
        some ({ StateWorker.new (fun s a => s + a) 0 with
                  state := some ([1, 2, 3].foldl (fun s a => s + a) 0) },
          dispatchTrace (fun s a => s + a) [] 0 [1, 2, 3]) :=
  ⟨rfl, dispatch_sequence_is_reducer_foldl (StateWorker.new (fun s a => s + a) 0) 0 [1, 2, 3] rfl⟩

/-- C2: executing one `Dispatch` work item: the completion signal is sent only
after the reducer has been applied, the owned state has been replaced by the
reducer's result, and every currently-registered subscriber has been notified
with the new state — the per-item trace is all notifications followed by the
completion event, which is the last event of the trace. -/
theorem dispatch_completion_after_notifications (w : StateWorker State Action)
    (s : State) (a : Action) (h : w.state = some s) :
    UnitOfWork.execute (R := R) w (Work.dispatch a) =
      some ({ w with state := some (w.root_reducer s a) },
        notifyTrace w.subscribers (w.root_reducer s a) ++ [WorkerEvent.dispatchDone]) ∧
      (notifyTrace (R := R) w.subscribers (w.root_reducer s a)
          ++ [WorkerEvent.dispatchDone]).getLast? = some WorkerEvent.dispatchDone :=
  ⟨execute_dispatch w s a h, by simp⟩

/-- Witness for C2: a concrete dispatch on a worker with two registered
subscribers notifies both with the new state, then signals completion. -/
theorem dispatch_completion_after_notifications_witness :
    (({ root_reducer := fun s a => s + a, state := some 5,
        subscribers := [0, 1] } : StateWorker Nat Nat)).state = some 5 ∧
      (UnitOfWork.execute (R := Nat)
          { root_reducer := fun s a => s + a, state := some 5, subscribers := [0, 1] }
          (Work.dispatch 2) =
        some ({ ({ root_reducer := fun s a => s + a, state := some 5,
                   subscribers := [0, 1] } : StateWorker Nat Nat) with
                  state := some ((fun (s a : Nat) => s + a) 5 2) },
          notifyTrace [0, 1] ((fun (s a : Nat) => s + a) 5 2)
            ++ [WorkerEvent.dispatchDone]) ∧
        (notifyTrace (R := Nat) [0, 1] ((fun (s a : Nat) => s + a) 5 2)
            ++ [WorkerEvent.dispatchDone]).getLast? = some WorkerEvent.dispatchDone) :=
  ⟨rfl, dispatch_completion_after_notifications
    { root_reducer := fun s a => s + a, state := some 5, subscribers := [0, 1] } 5 2 rfl⟩

/-- C4: executing one `Select` work item leaves the worker (state value and
subscriber list) unchanged, notifies no subscriber, and returns exactly the
selector applied to the current state; consequently two selects with no
intervening dispatch return equal results. -/
theorem select_is_pure_read (w : StateWorker State Action) (s : State)
    (f : State → R) (h : w.state = some s) :
    UnitOfWork.execute w (Work.select f) = some (w, [WorkerEvent.selected (f s)]) ∧
      StateWorker.run w [Work.select f, Work.select f] =
        some (w, [WorkerEvent.selected (f s), WorkerEvent.selected (f s)]) := by
  have hexec : UnitOfWork.execute w (Work.select f) =
      some (w, [WorkerEvent.selected (f s)]) := by
    simp [UnitOfWork.execute, StateWorker.handleSelect, h]
  refine ⟨hexec, ?_⟩
  simp [StateWorker.run, hexec]

/-- Witness for C4 at a concrete store: selecting twice from state `7` with a
doubling selector returns `14` both times and leaves the worker unchanged. -/
theorem select_is_pure_read_witness :
    (({ root_reducer := fun s a => s + a, state := some 7,
        subscribers := [3] } : StateWorker Nat Nat)).state = some 7 ∧
      (UnitOfWork.execute
          { root_reducer := fun s a => s + a, state := some 7, subscribers := [3] }
          (Work.select fun s => 2 * s) =
        some ({ root_reducer := fun s a => s + a, state := some 7, subscribers := [3] },
          [WorkerEvent.selected ((fun (s : Nat) => 2 * s) 7)]) ∧
        StateWorker.run
            { root_reducer := fun s a => s + a, state := some 7, subscribers := [3] }
            [Work.select fun s => 2 * s, Work.select fun s => 2 * s] =
          some ({ root_reducer := fun s a => s + a, state := some 7, subscribers := [3] },
            [WorkerEvent.selected ((fun (s : Nat) => 2 * s) 7),
             WorkerEvent.selected ((fun (s : Nat) => 2 * s) 7)])) :=
  ⟨rfl, select_is_pure_read
    { root_reducer := fun s a => s + a, state := some 7, subscribers := [3] } 7
    (fun s => 2 * s) rfl⟩

theorem execute_state_isSome (w : StateWorker State Action)
    (work : Work State Action R) (h : w.state.isSome) :
    ∃ w' events, UnitOfWork.execute w work = some (w', events) ∧ w'.state.isSome := by
  obtain ⟨s, hs⟩ := Option.isSome_iff_exists.mp h
  cases work with
  | dispatch a =>
    exact ⟨_, _, execute_dispatch w s a hs, rfl⟩
  | select f =>
    exact ⟨w, [WorkerEvent.selected (f s)],
      by simp [UnitOfWork.execute, StateWorker.handleSelect, hs], h⟩
  | subscribe x =>
    exact ⟨_, _, rfl, h⟩

/-- C10: the worker's `Option<State>` is `Some` whenever a work item begins or
finishes processing, for every sequence of `Dispatch`, `Select` and
`Subscribe` items: starting from a present state the run never panics (the
`state.take().unwrap()` and `state.as_ref().unwrap()` calls never see `None`,
modelled as the run never returning `none`) and the final state is again
present. -/
theorem worker_state_always_present (w : StateWorker State Action)
    (items : List (Work State Action R)) (h : w.state.isSome) :
    ∃ w' events, StateWorker.run w items = some (w', events) ∧ w'.state.isSome := by
  induction items generalizing w with
  | nil => exact ⟨w, [], rfl, h⟩
  | cons work rest ih =>
    obtain ⟨w1, ev1, hexec, h1⟩ := execute_state_isSome w work h
    obtain ⟨w2, ev2, hrun, h2⟩ := ih w1 h1
    exact ⟨w2, ev1 ++ ev2, by simp [StateWorker.run, hexec, hrun], h2⟩

/-- Witness for C10 on a concrete mixed sequence of all three work kinds. -/
theorem worker_state_always_present_witness :
    ((StateWorker.new (fun s a => s + a) 0 : StateWorker Nat Nat)).state.isSome = true ∧
      ∃ w' events,
        StateWorker.run (R := Nat) (StateWorker.new (fun s a => s + a) 0)
            [Work.subscribe 4, Work.dispatch 3, Work.select (fun s => s),
             Work.dispatch 1, Work.subscribe 9, Work.select (fun s => s + 100)] =
          some (w', events) ∧ w'.state.isSome :=
  ⟨rfl, worker_state_always_present (StateWorker.new (fun s a => s + a) 0)
    [Work.subscribe 4, Work.dispatch 3, Work.select (fun s => s),
     Work.dispatch 1, Work.subscribe 9, Work.select (fun s => s + 100)] rfl⟩

theorem notificationsTo_append (x : Nat) (l1 l2 : List (WorkerEvent State R)) :
    notificationsTo x (l1 ++ l2) = notificationsTo x l1 ++ notificationsTo x l2 := by
  induction l1 with
  | nil => rfl
  | cons e rest ih =>
    cases e with
    | notified y s =>
      simp only [List.cons_append, notificationsTo]
      split <;> simp [ih]
    | dispatchDone => simpa [notificationsTo] using ih
    | selected r => simpa [notificationsTo] using ih
    | subscribeDone => simpa [notificationsTo] using ih

theorem notificationsTo_notifyTrace_not_mem (x : Nat) (subs : List Nat) (s : State)
    (h : x ∉ subs) : notificationsTo x (notifyTrace (R := R) subs s) = [] := by
  induction subs with
  | nil => rfl
  | cons y rest ih =>
    rw [List.mem_cons, not_or] at h
    obtain ⟨h1, h2⟩ := h
    simp only [notifyTrace, List.map_cons, notificationsTo]
    rw [if_neg fun hyx => h1 hyx.symm]
    exact ih h2

theorem notificationsTo_notifyTrace_once (x : Nat) (subs : List Nat) (s : State)
    (h : x ∉ subs) :
    notificationsTo x (notifyTrace (R := R) (subs ++ [x]) s) = [s] := by
  have hsplit : notifyTrace (R := R) (subs ++ [x]) s =
      notifyTrace subs s ++ notifyTrace [x] s := by
    simp [notifyTrace]
  rw [hsplit, notificationsTo_append, notificationsTo_notifyTrace_not_mem x subs s h]
  simp [notifyTrace, notificationsTo]

theorem notificationsTo_dispatchTrace (x : Nat) (red : State → Action → State)
    (subs : List Nat) (s : State) (as : List Action) (h : x ∉ subs) :
    notificationsTo x (dispatchTrace (R := R) red (subs ++ [x]) s as) =
      scanStates red s as := by
  induction as generalizing s with
  | nil => rfl
  | cons a rest ih =>
    simp only [dispatchTrace, scanStates, notificationsTo_append,
      notificationsTo_notifyTrace_once x subs _ h, ih]
    simp [notificationsTo]

/-- C3: a subscriber `x` registered (one `Subscribe` work item) before `n`
dispatches are processed is notified exactly `n` times, the `k`-th
notification carrying exactly the state produced by the `k`-th dispatch, in
dispatch order (`notificationsTo x … = scanStates …`); and the full trace
equality shows that each dispatch notifies all registered subscribers in
registration order (`w.subscribers ++ [x]`, mapped in list order by
`notifyTrace`). -/
theorem subscribe_then_dispatch_notification_trace (w : StateWorker State Action)
    (s : State) (x : Nat) (as : List Action) (h : w.state = some s)
    (hx : x ∉ w.subscribers) :
    StateWorker.run (R := R) w (Work.subscribe x :: as.map Work.dispatch) =
      some ({ w with
                state := some (as.foldl w.root_reducer s)
                subscribers := w.subscribers ++ [x] },
        WorkerEvent.subscribeDone ::
          dispatchTrace w.root_reducer (w.subscribers ++ [x]) s as) ∧
      notificationsTo x
          (dispatchTrace (R := R) w.root_reducer (w.subscribers ++ [x]) s as) =
        scanStates w.root_reducer s as := by
  constructor
  · have hrec := run_dispatches (R := R)
      ({ w with subscribers := w.subscribers ++ [x] }) s as h
    simp only [StateWorker.run, UnitOfWork.execute, StateWorker.handleSubscribe]
    rw [hrec]
    simp
  · exact notificationsTo_dispatchTrace x w.root_reducer w.subscribers s as hx

/-- Witness for C3: subscriber `7` registered before dispatching `[1, 2]` on
an adding reducer from state `0` sees exactly the states `[1, 3]`. -/
theorem subscribe_then_dispatch_notification_trace_witness :
    (({ root_reducer := fun s a => s + a, state := some 0,
        subscribers := [5] } : StateWorker Nat Nat)).state = some 0 ∧
      (7 : Nat) ∉ [5] ∧
      (StateWorker.run (R := Nat)
          { root_reducer := fun s a => s + a, state := some 0, subscribers := [5] }
          (Work.subscribe 7 :: [1, 2].map Work.dispatch) =
        some ({ ({ root_reducer := fun s a => s + a, state := some 0,
                   subscribers := [5] } : StateWorker Nat Nat) with
                  state := some ([1, 2].foldl (fun s a => s + a) 0)
                  subscribers := [5] ++ [7] },
          WorkerEvent.subscribeDone ::
            dispatchTrace (fun s a => s + a) ([5] ++ [7]) 0 [1, 2]) ∧
        notificationsTo 7
            (dispatchTrace (R := Nat) (fun s a => s + a) ([5] ++ [7]) 0 [1, 2]) =
          scanStates (fun s a => s + a) 0 [1, 2]) :=
  ⟨rfl, by decide,
    subscribe_then_dispatch_notification_trace
      { root_reducer := fun s a => s + a, state := some 0, subscribers := [5] }
      0 7 [1, 2] rfl (by decide)⟩

variable {M : Type} {V : Type}

/-- `Store::new_with_state` (`src/store/mod.rs` lines 36-50): build a fresh
`StateWorker` owning the given reducer and initial state and spawn it; the
store handle is identified with the worker its address reaches. -/
def Store.new_with_state (root_reducer : State → Action → State) (state : State) :
    StateWorker State Action :=
  StateWorker.new root_reducer state

/-- `Store::new` (`src/store/mod.rs` lines 29-34): delegate to
`new_with_state(root_reducer, Default::default())`; the `Default` bound is
modelled by an `Inhabited` instance. -/
def Store.new [Inhabited State] (root_reducer : State → Action → State) :
    StateWorker State Action :=
  Store.new_with_state root_reducer default

/-- `Store::select` (`src/store/mod.rs` lines 56-62): one mailbox round-trip
executing a `Select` work item on the worker and awaiting its result. -/
def Store.select (w : StateWorker State Action) (selector : State → R) : Option R :=
  w.handleSelect selector

/-- `Store::state_cloned` (`src/store/mod.rs` lines 64-69): built on `select`
with the identity-clone selector `|state| state.clone()`; cloning is the
identity on the immutable modelled values. -/
def Store.state_cloned (w : StateWorker State Action) : Option State :=
  Store.select w fun state => state

/-- C9: a store constructed by `new(reducer)` is the store constructed by
`new_with_state(reducer, State::default())`: same initial worker, and every
`select` or `state_cloned` issued before any dispatch observes exactly the
default-constructed state. -/
theorem store_new_uses_default_state [Inhabited State]
    (red : State → Action → State) :
    (Store.new red : StateWorker State Action) = Store.new_with_state red default ∧
      (∀ f : State → R,
        Store.select (Store.new red : StateWorker State Action) f = some (f default)) ∧
      Store.state_cloned (Store.new red : StateWorker State Action) =
        some (default : State) :=
  ⟨rfl, fun _ => rfl, rfl⟩

/-- Events observable through the middleware chain: the before/after side
effects a middleware layer performs around forwarding a dispatch (the log
lines of the logging middleware in the tests of `src/middleware.rs`),
tagged by the layer's name. -/
inductive MwEvent where
  | entered (name : Nat)
  | exited (name : Nat)
  deriving DecidableEq

/-- The `StoreApi` trait (`src/middleware.rs` lines 10-40): the surface every
store-like entity offers, over which middleware layers compose.  `V` is the
entity's hidden world (for a plain `Store`, the state worker reached through
its mailbox).  `dispatch` yields the updated world plus the ordered
side-effect log of the dispatch path, `select` returns the selector's result,
`subscribe` registers a subscriber in the world. -/
structure StoreApi (V State Action R : Type) where
  dispatch : Action → V → V × List MwEvent
  select : (State → R) → V → R
  subscribe : Nat → V → V

/-- Default method `StoreApi::state_cloned` (`src/middleware.rs` lines
29-36): `self.select(|state| state.clone())`, inherited unchanged by
`StoreWithMiddleware`. -/
def StoreApi.state_cloned (api : StoreApi V State Action State) (v : V) : State :=
  api.select (fun state => state) v

/-- C8: `state_cloned()` is `select` with the identity-clone selector
`|state| state.clone()`: the facade definition is that very `select`
(first conjunct), it returns the current state (second), the underlying
`Select` work item leaves the worker unchanged — no update (third) — and the
`StoreApi` default method is the same identity-clone `select` for every
store-like entity, including middleware-wrapped ones (fourth). -/
theorem state_cloned_is_identity_select (w : StateWorker State Action) (s : State)
    (h : w.state = some s) :
    Store.state_cloned w = Store.select w (fun st => st) ∧
      Store.state_cloned w = some s ∧
      UnitOfWork.execute w (Work.select fun st => st) =
        some (w, [WorkerEvent.selected s]) ∧
      ∀ (V : Type) (api : StoreApi V State Action State) (v : V),
        StoreApi.state_cloned api v = api.select (fun st => st) v :=
  ⟨rfl,
    by simp [Store.state_cloned, Store.select, StateWorker.handleSelect, h],
    by simp [UnitOfWork.execute, StateWorker.handleSelect, h],
    fun _ _ _ => rfl⟩

/-- Witness for C8 at a concrete worker holding state `11`. -/
theorem state_cloned_is_identity_select_witness :
    (({ root_reducer := fun s a => s + a, state := some 11,
        subscribers := [] } : StateWorker Nat Nat)).state = some 11 ∧
      (Store.state_cloned
          ({ root_reducer := fun s a => s + a, state := some 11,
             subscribers := [] } : StateWorker Nat Nat) =
        Store.select
          { root_reducer := fun s a => s + a, state := some 11, subscribers := [] }
          (fun st => st) ∧
      Store.state_cloned
          ({ root_reducer := fun s a => s + a, state := some 11,
             subscribers := [] } : StateWorker Nat Nat) = some 11 ∧
      UnitOfWork.execute
          ({ root_reducer := fun s a => s + a, state := some 11,
             subscribers := [] } : StateWorker Nat Nat) (Work.select fun st => st) =
        some ({ root_reducer := fun s a => s + a, state := some 11, subscribers := [] },
          [WorkerEvent.selected 11]) ∧
      ∀ (V : Type) (api : StoreApi V Nat Nat Nat) (v : V),
        StoreApi.state_cloned api v = api.select (fun st => st) v) :=
  ⟨rfl, state_cloned_is_identity_select
    { root_reducer := fun s a => s + a, state := some 11, subscribers := [] } 11 rfl⟩

variable {A : Type} {B : Type} {C : Type}

/-- The `MiddleWare` trait (`src/middleware.rs` lines 106-127): `init` runs
exactly once at wrap time against the inner store; `dispatch` runs for every
outer action and decides how to forward to the inner store (zero, one or
many inner dispatches, with arbitrary before/after effects).  `A` is the
outer action type, `B` the inner store's action type. -/
structure MiddleWare (V State A B R : Type) where
  init : StoreApi V State B R → V → V
  dispatch : A → StoreApi V State B R → V → V × List MwEvent

/-- `StoreWithMiddleware` (`src/middleware.rs` lines 130-145): the composed
store produced by wrapping, holding the inner store and the middleware. -/
structure StoreWithMiddleware (V State B A R : Type) where
  inner : StoreApi V State B R
  middleware : MiddleWare V State A B R

/-- The `StoreApi` implementation of `StoreWithMiddleware`
(`src/middleware.rs` lines 184-198): `dispatch` hands the outer action and
the inner store to the middleware; `select` and `subscribe` go straight to
the inner store, untouched by the middleware. -/
def StoreWithMiddleware.toStoreApi (sm : StoreWithMiddleware V State B A R) :
    StoreApi V State A R where
  dispatch a v := sm.middleware.dispatch a sm.inner v
  select f v := sm.inner.select f v
  subscribe x v := sm.inner.subscribe x v

/-- `StoreWithMiddleware::new` (`src/middleware.rs` lines 158-167): run the
middleware's `init` hook against the inner store once, at wrap time, and
build the composed store; the pair's second component is the world after
`init`. -/
def StoreWithMiddleware.new (inner : StoreApi V State B R)
    (middleware : MiddleWare V State A B R) (v : V) :
    StoreWithMiddleware V State B A R × V :=
  ({ inner := inner, middleware := middleware }, middleware.init inner v)

/-- `Store::wrap` (`src/store/mod.rs` lines 77-90): wrap a store-like entity,
given by its `StoreApi`, with a middleware via `StoreWithMiddleware::new`. -/
def StoreApi.wrap (inner : StoreApi V State B R)
    (middleware : MiddleWare V State A B R) (v : V) :
    StoreWithMiddleware V State B A R × V :=
  StoreWithMiddleware.new inner middleware v

/-- `StoreWithMiddleware::wrap` (`src/middleware.rs` lines 169-178): wrap an
already-wrapped store with a further middleware. -/
def StoreWithMiddleware.wrap (sm : StoreWithMiddleware V State B A R)
    (middleware : MiddleWare V State C A R) (v : V) :
    StoreWithMiddleware V State A C R × V :=
  StoreWithMiddleware.new sm.toStoreApi middleware v

/-- The logging middleware of the tests in `src/middleware.rs` (lines
221-247): log a before line, dispatch the unchanged action to the inner
store, log an after line; the two log lines become `entered`/`exited` events
around the inner store's own dispatch events. -/
def LoggerMiddleware (name : Nat) : MiddleWare V State A A R where
  init _ v := v
  dispatch a inner v :=
    match inner.dispatch a v with
    | (v1, events) => (v1, MwEvent.entered name :: events ++ [MwEvent.exited name])

/-- C5: wrapping store `S` with middleware `M1` and then `M2` makes an outer
dispatch enter `M2` first: the composed dispatch is `M2`'s dispatch handed
the `M1`-wrapped store as its inner store, so `M1` runs only if `M2`
forwards and the native store only if `M1` then forwards (first conjunct,
arbitrary middlewares).  With the two test logging middlewares the trace is
entry of the last-wrapped layer first and the exits unwinding in reverse:
`M2` enter, `M1` enter, native events, `M1` exit, `M2` exit (second
conjunct). -/
theorem middleware_wrap_order_last_wrapped_first (S : StoreApi V State A R)
    (m1 : MiddleWare V State B A R) (m2 : MiddleWare V State C B R)
    (n1 n2 : Nat) (c : C) (a : A) (v v1 v2 : V) :
    (((S.wrap m1 v1).1.wrap m2 v2).1.toStoreApi.dispatch c v =
        m2.dispatch c (S.wrap m1 v1).1.toStoreApi v) ∧
      ((S.wrap (LoggerMiddleware n1) v1).1.wrap (LoggerMiddleware n2) v2).1.toStoreApi.dispatch
          a v =
        ((S.dispatch a v).1,
          MwEvent.entered n2 :: MwEvent.entered n1 :: (S.dispatch a v).2
            ++ [MwEvent.exited n1, MwEvent.exited n2]) := by
  refine ⟨rfl, ?_⟩
  rcases hS : S.dispatch a v with ⟨v', events⟩
  simp [StoreApi.wrap, StoreWithMiddleware.wrap, StoreWithMiddleware.new,
    StoreWithMiddleware.toStoreApi, LoggerMiddleware, hS]

/-- C6: `select` and `subscribe` on a middleware-wrapped store are the very
`select` and `subscribe` of the innermost store — one layer of wrapping and
two layers both pass them through unchanged; middleware only intercepts the
dispatch path. -/
theorem middleware_select_subscribe_passthrough (S : StoreApi V State A R)
    (m1 : MiddleWare V State B A R) (m2 : MiddleWare V State C B R) (v1 v2 : V) :
    ((S.wrap m1 v1).1.toStoreApi.select = S.select ∧
        (S.wrap m1 v1).1.toStoreApi.subscribe = S.subscribe) ∧
      ((S.wrap m1 v1).1.wrap m2 v2).1.toStoreApi.select = S.select ∧
        ((S.wrap m1 v1).1.wrap m2 v2).1.toStoreApi.subscribe = S.subscribe :=
  ⟨⟨rfl, rfl⟩, rfl, rfl⟩

/-- Model of the unbounded mpsc channel as seen from a sender
(`tokio::sync::mpsc::UnboundedSender`): `isOpen` is whether the receiving
half — the worker's mailbox loop — is still alive, `queue` the messages
enqueued so far in FIFO order. -/
structure MailboxChannel (M : Type) where
  isOpen : Bool
  queue : List M

/-- Result of `UnboundedSender::send`: `ok`, or the error carrying back the
rejected message when the receiver has been dropped (channel closed). -/
inductive SendResult where
  | ok
  | closedChannel
  deriving DecidableEq

/-- `UnboundedSender::send`: enqueue when the channel is open; when the
worker is gone, leave the queue untouched and return the error (which the
caller in `Address::send` discards, dropping the message). -/
def UnboundedSender.send (mb : MailboxChannel M) (msg : M) :
    MailboxChannel M × SendResult :=
  if mb.isOpen then ({ mb with queue := mb.queue ++ [msg] }, SendResult.ok)
  else (mb, SendResult.closedChannel)

/-- Outcome of `rx.await.unwrap()` on the oneshot completion channel:
`received r` when the worker processed the message and sent `r` back;
`senderDropped` when the message never reached the worker, so its oneshot
sender was dropped unsent and the await resolves to the abandoned-channel
failure the unwrap turns into an abort — an unrecoverable wait, not a typed
error value handed to the caller. -/
inductive AwaitedResponse (R : Type) where
  | received (result : R)
  | senderDropped
  deriving DecidableEq

/-- `Address::send` (`src/store/worker/mailbox.rs` lines 59-67): create the
oneshot completion channel, enqueue the message with
`let _ = self.tx.send(...)` — the send error is discarded — then
`rx.await.unwrap()`.  `reply` models the live worker's handling of a
delivered message. -/
def Address.send (mb : MailboxChannel M) (msg : M) (reply : M → R) :
    MailboxChannel M × AwaitedResponse R :=
  match UnboundedSender.send mb msg with
  | (mb1, SendResult.ok) => (mb1, AwaitedResponse.received (reply msg))
  | (mb1, SendResult.closedChannel) => (mb1, AwaitedResponse.senderDropped)

/-- C7: once the worker has terminated and the mailbox is closed, a store
operation's send is a silent no-op: the queue is unchanged (the request is
dropped together with the discarded send error) and the caller is handed no
typed error — the only outcome is the abandoned completion await (the
unrecoverable wait the spec describes, surfaced by the unwrap), not a
distinct error path. -/
theorem closed_mailbox_send_is_silent_noop (mb : MailboxChannel M) (msg : M)
    (reply : M → R) (h : mb.isOpen = false) :
    Address.send mb msg reply = (mb, AwaitedResponse.senderDropped) ∧
      (UnboundedSender.send mb msg).1.queue = mb.queue := by
  constructor <;> simp [Address.send, UnboundedSender.send, h]

/-- Witness for C7 on a concrete closed mailbox with two undelivered
messages left in its queue. -/
theorem closed_mailbox_send_is_silent_noop_witness :
    ({ isOpen := false, queue := [1, 2] } : MailboxChannel Nat).isOpen = false ∧
      (Address.send ({ isOpen := false, queue := [1, 2] } : MailboxChannel Nat) 9
          (fun m => m + 1) =
        ({ isOpen := false, queue := [1, 2] }, AwaitedResponse.senderDropped) ∧
      (UnboundedSender.send ({ isOpen := false, queue := [1, 2] } : MailboxChannel Nat)
          9).1.queue = [1, 2]) :=
  ⟨rfl, closed_mailbox_send_is_silent_noop { isOpen := false, queue := [1, 2] } 9
    (fun m => m + 1) rfl⟩
